import Mathlib

/-!
# Shallow embedding of the `nft_com_auction` Anchor program

Embeds `src/auction-contract/programs/auction-contract/src/lib.rs` (the
authoritative copy; `src/Auction.rs` is an older duplicate whose bodies of
`place_bid`, `withdraw` and `end_auction` are line-for-line identical in the
parts the claims touch) together with
`src/auction-contract/programs/auction-contract/src/utils.rs`.

Modelling conventions:
* `Pubkey` is `Nat`; `Pubkey::default()` is `0`.
* `u64` values are `Nat` kept below `2^64`; every arithmetic operator of the
  source (`*`, `-`, `+` on `u64`) is embedded with explicit wrapping modulo
  `2^64` (`wrapMul`, `wrapSub`, `wrapAdd`), matching unchecked release-mode
  Rust semantics — the source uses no `checked_*` operation anywhere.
* `i64` timestamps are `Int` (no timestamp arithmetic in the claims comes
  near the `i64` range).
* Rust `HashMap` is an association list with `HashMap::insert` replace
  semantics (`setKV`); `Vec` is `List`.
* Each instruction is a function `state → Except ErrorCode (state × extra)`.
  A Rust `panic` (`unwrap()` on `None`, `HashMap` indexing on a missing key)
  also aborts the enclosing Solana transaction, and is modelled by the
  distinguished error `ErrorCode.PanicUnwrap`.
* The Solana/Anchor runtime commits account mutations only when the
  instruction returns `Ok`; on any error the whole transaction is discarded.
  `runTx` captures this all-or-nothing semantics.
* External effects (lamport transfers via `try_borrow_mut_lamports` or
  `invoke(system_instruction::transfer ..)`, and the zeroing of a bidder
  entry) are recorded in an `Action` trace in source execution order, so that
  ordering properties (checks-effects-interactions) are visible.
* The NFT mint hook `mint_nft` is not defined anywhere under `src/`; the spec
  lists it as an external collaborator returning a `Result`.  Its outcome is
  passed to `end_auction` as the boolean parameter `mint_ok`.
-/

namespace NftComAuctionModel

/-- Identities; `0` plays the role of `Pubkey::default()`. -/
abbrev Pubkey := Nat

/-- The value `Pubkey::default()`. -/
def pubkeyDefault : Pubkey := 0

/-- The constant `2 ^ 64`, the wrap-around modulus of Rust `u64` arithmetic. -/
def U64MOD : Nat := 18446744073709551616

/-- Wrapping `u64` addition (release-mode Rust `+`). -/
def wrapAdd (a b : Nat) : Nat := (a + b) % U64MOD

/-- Wrapping `u64` multiplication (release-mode Rust `*`). -/
def wrapMul (a b : Nat) : Nat := (a * b) % U64MOD

/-- Wrapping `u64` subtraction (release-mode Rust `-`); correct for
arguments below `U64MOD`. -/
def wrapSub (a b : Nat) : Nat := (U64MOD + a - b) % U64MOD

/-- Rust `HashMap::get` on an association list. -/
def lookupKV {κ α : Type} [DecidableEq κ] : List (κ × α) → κ → Option α
  | [], _ => none
  | (k', v) :: t, k => if k' = k then some v else lookupKV t k

/-- Rust `HashMap::insert` (replaces the value when the key is present). -/
def setKV {κ α : Type} [DecidableEq κ] : List (κ × α) → κ → α → List (κ × α)
  | [], k, v => [(k, v)]
  | (k', v') :: t, k, v => if k' = k then (k, v) :: t else (k', v') :: setKV t k v

/-- Rust `map.entry(k).or_default().push(x)` on a `HashMap<_, Vec<_>>`. -/
def pushKV {κ : Type} [DecidableEq κ] (m : List (κ × List String)) (k : κ)
    (x : String) : List (κ × List String) :=
  match lookupKV m k with
  | some l => setKV m k (l ++ [x])
  | none => setKV m k [x]

/-- Source `struct Bid` with fields `amount: u64` and `time: i64` (lib.rs lines 516-520). -/
structure Bid where
  amount : Nat
  time : Int
deriving DecidableEq, Repr

/-- One element of `AuctionDetails.bidders`.  The struct declares
`bidders: Vec<Pubkey>` (lib.rs line 497) but every use site
(`withdraw`, `get_user_bid`, `get_latest_bids`, `get_auction_details`)
reads fields `.key`, `.amount`, `.time` of its elements; the embedding
follows the use sites. -/
structure BidderEntry where
  key : Pubkey
  amount : Nat
  time : Int
deriving DecidableEq, Repr

/-- Source `struct AuctionDetails` (lib.rs lines 483-501).  The three trailing
per-auction map fields (`active_auctions`, `past_auctions`,
`pending_withdrawals`) are never read or written by any instruction and are
omitted. -/
structure AuctionDetails where
  listing_id : String
  highest_bid : Nat
  highest_bidder : Pubkey
  bids : List (Pubkey × Bid)
  minimum_bid : Nat
  end_time : Int
  fees : Nat
  ended : Bool
  paused : Bool
  is_alien : Bool
  total_amount : Nat
  owner : Pubkey
  bidders : List BidderEntry
deriving DecidableEq, Repr

/-- Source `struct NftComAuction` (lib.rs lines 522-533).  `sniping_time_window` and
`time_extension` are read by `place_bid` (lib.rs lines 116-121) although the
struct declaration omits them (a compile slip of the source); they are
included here as the state fields the code reads. -/
structure NftComAuction where
  auctions : List (String × AuctionDetails)
  active_auctions : List (Pubkey × List String)
  past_auctions : List (Pubkey × List String)
  pending_withdrawals : List (Pubkey × Nat)
  fee_recipient : Pubkey
  active_bids : List (Pubkey × List String)
  buyer_fee : Nat
  seller_fee : Nat
  nft_contract : Pubkey
  sniping_time_window : Int
  time_extension : Int
deriving DecidableEq, Repr

/-- Union of the error variants the instruction bodies use (the declared
`ErrorCode` enums of lib.rs and utils.rs omit several variants the code
names — another compile slip; the embedding gives every used variant a
constructor).  `PanicUnwrap` models a Rust panic (`unwrap()` on `None`,
indexing a missing `HashMap` key), which aborts the transaction exactly like
a returned error. -/
inductive ErrorCode where
  | InvalidListingId
  | AuctionNotEnded
  | MinimumBidError
  | EndTimeError
  | BidderIsOwner
  | AuctionEnded
  | AuctionPaused
  | AlienAuctionError
  | HighestBidderCannotWithdraw
  | NoFundsToWithdraw
  | AuctionAlreadyEnded
  | NothingToWithdraw
  | MintingFailed
  | InvalidSellerAddress
  | InvalidPaymentContractAddress
  | PanicUnwrap
deriving DecidableEq, Repr

/-- Events emitted via `emit!`. -/
inductive Event where
  | bidPlaced (listing : String) (sender : Pubkey) (value : Nat)
  | auctionInitialized (listing : String) (minimum : Nat) (endTime : Int)
deriving DecidableEq, Repr

/-- External effects and bookkeeping steps, recorded in execution order.
`transfer src dst amount` is a lamport movement (either the
`try_borrow_mut_lamports` pair of `withdraw`, lib.rs lines 159-160, or an
`invoke(system_instruction::transfer ..)` of `end_auction`);
`zeroEntry` is the zeroing of a bidder's balance entry
(lib.rs lines 162-166). -/
inductive Action where
  | transfer (src dst : Pubkey) (amount : Nat)
  | zeroEntry (listing : String) (bidder : Pubkey)
deriving DecidableEq, Repr

/-- Anchor transaction semantics: account mutations are committed only when
the instruction succeeds; any error (or panic) aborts the transaction and
leaves the persisted state untouched (spec section 5, all-or-nothing). -/
def runTx {α : Type} (op : NftComAuction → Except ErrorCode (NftComAuction × α))
    (s : NftComAuction) : NftComAuction :=
  match op s with
  | .ok (s', _) => s'
  | .error _ => s

/-- Embedding of `place_bid` (lib.rs lines 99-130).  Parameters: `listing_id` and `bidder`
are the instruction arguments, `caller` is `ctx.accounts.owner.key()`,
`bid_amount` is `ctx.accounts.bid_amount`, `now` is
`Clock::get().unwrap().unix_timestamp`.  Note that the body validates
identity, pause/end state and time, but performs no minimum-bid or
highest-bid comparison: the leadership update is an unimplemented stub
(source comment at lines 125-126), so only `end_time` (anti-sniping) and
`total_amount` are mutated before the `BidPlaced` event is emitted. -/
def place_bid (s : NftComAuction) (listing_id : String) (bidder caller : Pubkey)
    (bid_amount : Nat) (now : Int) : Except ErrorCode (NftComAuction × Event) :=
  match lookupKV s.auctions listing_id with
  | none => .error .InvalidListingId
  | some auction =>
    if bidder = auction.owner then .error .BidderIsOwner
    else if caller = auction.owner then .error .BidderIsOwner
    else
      let fee := wrapMul bid_amount s.buyer_fee / 1000
      let net := wrapSub bid_amount fee
      if auction.ended then .error .AuctionEnded
      else if auction.paused then .error .AuctionPaused
      else if ¬ now ≤ auction.end_time then .error .AuctionEnded
      else
        let auction1 :=
          if auction.end_time - s.sniping_time_window ≤ now then
            { auction with end_time := auction.end_time + s.time_extension }
          else auction
        let auction2 := { auction1 with
          total_amount := wrapAdd auction1.total_amount net }
        let s' := { s with auctions := setKV s.auctions listing_id auction2 }
        .ok (s', .bidPlaced listing_id bidder net)

/-- Embedding of `initialize_auction` (lib.rs lines 54-96).  `signer` is
`ctx.accounts.owner.key()`.  The source forwards its own `ctx` to
`place_bid` even though the `InitializeAuction` context has no `bid_amount`
account (a type error in the source); the seed bid's gross amount is
therefore an explicit parameter `bid_amount` here.  The `?` on the inner
`place_bid` call propagates any seed-bid error out of the whole
instruction. -/
def initialize_auction (s : NftComAuction) (listing_id : String) (minimum : Nat)
    (end_time : Int) (owner : Pubkey) (bidderOpt : Option Pubkey) (signer : Pubkey)
    (bid_amount : Nat) (now : Int) : Except ErrorCode (NftComAuction × List Event) :=
  let bidder := bidderOpt.getD signer
  if (lookupKV s.auctions listing_id).isSome then .error .InvalidListingId
  else if ¬ 0 < minimum then .error .MinimumBidError
  else if ¬ now < end_time then .error .EndTimeError
  else
    let auction : AuctionDetails :=
      { listing_id := listing_id
        highest_bid := 0
        highest_bidder := pubkeyDefault
        bids := []
        minimum_bid := minimum
        end_time := end_time
        fees := 0
        ended := false
        paused := false
        is_alien := false
        total_amount := 0
        owner := owner
        bidders := [] }
    let s1 := { s with auctions := setKV s.auctions listing_id auction }
    let s2 := { s1 with active_auctions := pushKV s1.active_auctions owner listing_id }
    match place_bid s2 listing_id bidder signer bid_amount now with
    | .error e => .error e
    | .ok (s3, ev) =>
      .ok (s3, [ev, .auctionInitialized listing_id minimum end_time])

/-- Zero the first `bidders` entry with the given key
(`iter_mut().find(..).unwrap().amount = 0`, lib.rs lines 163-166). -/
def zeroFirst : List BidderEntry → Pubkey → List BidderEntry
  | [], _ => []
  | b :: t, k => if b.key = k then { b with amount := 0 } :: t else b :: zeroFirst t k

/-- Embedding of `withdraw` (lib.rs lines 132-169).  `bidderKey` is
`ctx.accounts.bidder.key()`, `toAccount` is the `to` account of the
`Withdraw` context (the lamport recipient at line 160; the `recipient`
local computed from the `to : Option<Pubkey>` argument is never used).
The returned `Action` trace records execution order: the lamport transfer
(lines 159-160) happens first, the zeroing of the entry (lines 162-166)
happens after it. -/
def withdraw (s : NftComAuction) (listing_id : String) (bidderKey : Pubkey)
    (toOpt : Option Pubkey) (toAccount : Pubkey) :
    Except ErrorCode (NftComAuction × List Action) :=
  match lookupKV s.auctions listing_id with
  | none => .error .InvalidListingId
  | some auction =>
    if auction.is_alien then .error .AlienAuctionError
    else if bidderKey = auction.highest_bidder then .error .HighestBidderCannotWithdraw
    else
      match auction.bidders.find? (fun b => b.key == bidderKey) with
      | none => .error .NoFundsToWithdraw
      | some entry =>
        let refund_amount := entry.amount
        if ¬ 0 < refund_amount then .error .NoFundsToWithdraw
        else
          let _recipient := toOpt.getD bidderKey
          let auction' := { auction with bidders := zeroFirst auction.bidders bidderKey }
          let s' := { s with auctions := setKV s.auctions listing_id auction' }
          .ok (s', [Action.transfer bidderKey toAccount refund_amount,
                    Action.zeroEntry listing_id bidderKey])

/-- Embedding of `uint_to_string` (utils.rs lines 11-14). -/
def uint_to_string (value : Nat) : String := toString value

/-- Embedding of `generate_metadata` (utils.rs lines 16-45).  The `time as u64` cast is
the two's-complement reinterpretation `time % 2^64`. -/
def generate_metadata (listing_id : String) (amount : Nat) (time : Int)
    (seller_address payment_contract_address : Pubkey) : Except ErrorCode String :=
  if seller_address = pubkeyDefault then .error .InvalidSellerAddress
  else if payment_contract_address = pubkeyDefault then
    .error .InvalidPaymentContractAddress
  else
    .ok ("listing_id:" ++ listing_id ++ ", amount:" ++ uint_to_string amount ++
      ", time:" ++ uint_to_string ((time % (18446744073709551616 : Int)).toNat) ++
      ", seller:" ++ toString seller_address ++
      ", minter:" ++ toString payment_contract_address)

/-- Embedding of `end_auction` (lib.rs lines 235-327).  `ownerAccount` is
`ctx.accounts.owner.key()` (the funding side of both transfers),
`feeRecipientAccount` and `systemProgram` the corresponding context
accounts, `now` the clock reading, and `mint_ok` the outcome of the
external `mint_nft` collaborator (not defined under `src/`).  The
reclassification indexes `active_auctions[&auction.owner]` (panics when the
owner key is absent) and `unwrap`s the owner's `past_auctions` vector; the
metadata step `unwrap`s `bids.get(&highest_bidder)`.  A failed mint aborts
with `MintingFailed` before the two transfer effects are produced. -/
def end_auction (s : NftComAuction) (listing_id : String) (hook : Pubkey)
    (ownerAccount feeRecipientAccount systemProgram : Pubkey) (now : Int)
    (mint_ok : Bool) : Except ErrorCode (NftComAuction × List Action) :=
  match lookupKV s.auctions listing_id with
  | none => .error .InvalidListingId
  | some auction =>
    if ¬ auction.end_time ≤ now then .error .AuctionNotEnded
    else if auction.ended then .error .AuctionAlreadyEnded
    else if ¬ 0 < auction.highest_bid then .error .NothingToWithdraw
    else
      let auction := { auction with ended := true }
      let s1 := { s with auctions := setKV s.auctions listing_id auction }
      let seller_fee := s.seller_fee
      let fee0 := wrapMul auction.highest_bid seller_fee / 1000
      let owner_earnings0 := wrapSub auction.highest_bid fee0
      let fee1 := wrapAdd fee0 auction.fees
      let feeEarn :=
        if auction.is_alien then
          let total_fees := wrapMul auction.total_amount seller_fee / 1000
          (wrapAdd fee1 total_fees,
           wrapAdd owner_earnings0 (wrapSub auction.total_amount total_fees))
        else (fee1, owner_earnings0)
      match lookupKV s1.active_auctions auction.owner with
      | none => .error .PanicUnwrap
      | some act =>
        let reclass : Except ErrorCode NftComAuction :=
          match act.findIdx? (fun x => x == listing_id) with
          | some index =>
            match lookupKV s1.past_auctions auction.owner with
            | none => .error .PanicUnwrap
            | some past =>
              .ok { s1 with
                active_auctions := setKV s1.active_auctions auction.owner
                  (act.eraseIdx index)
                past_auctions := setKV s1.past_auctions auction.owner
                  (past ++ [listing_id]) }
          | none => .ok s1
        match reclass with
        | .error e => .error e
        | .ok s2 =>
          match lookupKV auction.bids auction.highest_bidder with
          | none => .error .PanicUnwrap
          | some winBid =>
            let _metadata := generate_metadata listing_id auction.highest_bid
              winBid.time auction.owner systemProgram
            if ¬ mint_ok then .error .MintingFailed
            else
              .ok (s2, [Action.transfer ownerAccount auction.owner feeEarn.2,
                        Action.transfer ownerAccount feeRecipientAccount feeEarn.1])

/-- Response struct of `get_auction_details` (lib.rs lines 421-441), restricted to the fields of
the response that exist on the embedded `AuctionDetails` (the response copies
them verbatim). -/
structure AuctionDetailsResponse where
  listing_id : String
  highest_bid : Nat
  highest_bidder : Pubkey
  minimum_bid : Nat
  ended : Bool
  owner : Pubkey
  end_time : Int
  bidders : List BidderEntry
  num_bidders : Nat
deriving DecidableEq, Repr

/-- Embedding of the `get_auction_details` projection of one auction (lib.rs lines 428-438). -/
def get_auction_details (a : AuctionDetails) : AuctionDetailsResponse :=
  { listing_id := a.listing_id
    highest_bid := a.highest_bid
    highest_bidder := a.highest_bidder
    minimum_bid := a.minimum_bid
    ended := a.ended
    owner := a.owner
    end_time := a.end_time
    bidders := a.bidders
    num_bidders := a.bidders.length }

/-- Sum of the escrowed amounts recorded for a listing (the ledger the spec
calls `BalanceEntry`s; in the source these are the `bidders` entries). -/
def escrowSum (a : AuctionDetails) : Nat :=
  (a.bidders.map (fun b => b.amount)).sum

/-! ## Concrete states used by the claim theorems -/

/-- A freshly initialized listing `"L1"`: owner `1`, minimum bid `100`,
`end_time = 1000`, no bids yet. -/
def auctionL1 : AuctionDetails :=
  { listing_id := "L1"
    highest_bid := 0
    highest_bidder := pubkeyDefault
    bids := []
    minimum_bid := 100
    end_time := 1000
    fees := 0
    ended := false
    paused := false
    is_alien := false
    total_amount := 0
    owner := 1
    bidders := [] }

/-- Registry state holding the fresh `"L1"`, with `buyer_fee = 20` bps
(per-mille), `seller_fee = 50`, anti-sniping window `10` and extension `5`. -/
def stateEx : NftComAuction :=
  { auctions := [("L1", auctionL1)]
    active_auctions := [(1, ["L1"])]
    past_auctions := [(1, [])]
    pending_withdrawals := []
    fee_recipient := 7
    active_bids := []
    buyer_fee := 20
    seller_fee := 50
    nft_contract := 8
    sniping_time_window := 10
    time_extension := 5 }

/-- Like `stateEx` but with `buyer_fee = 8` (used to exhibit the `u64`
wrap in the fee computation). -/
def stateFee8 : NftComAuction := { stateEx with buyer_fee := 8 }

/-- Listing `"L1"` in a withdrawable configuration: bidder `2` has an
escrowed entry of `500`, the highest bidder is `4`. -/
def auctionW : AuctionDetails :=
  { auctionL1 with
    highest_bid := 600
    highest_bidder := 4
    bidders := [{ key := 2, amount := 500, time := 7 }] }

/-- Registry state holding `auctionW`. -/
def stateW : NftComAuction := { stateEx with auctions := [("L1", auctionW)] }

/-- Listing `"L1"` ready to settle: highest bid `980` by bidder `2`
(with its `bids` record), not ended, `end_time = 1000`. -/
def auctionS : AuctionDetails :=
  { auctionL1 with
    highest_bid := 980
    highest_bidder := 2
    bids := [(2, { amount := 980, time := 7 })]
    total_amount := 980
    bidders := [{ key := 2, amount := 980, time := 7 }] }

/-- Registry state holding `auctionS`. -/
def stateS : NftComAuction := { stateEx with auctions := [("L1", auctionS)] }

/-- An empty registry (no listings yet). -/
def stateEmpty : NftComAuction :=
  { auctions := []
    active_auctions := []
    past_auctions := []
    pending_withdrawals := []
    fee_recipient := 7
    active_bids := []
    buyer_fee := 20
    seller_fee := 50
    nft_contract := 8
    sniping_time_window := 10
    time_extension := 5 }

/-! ## Helper lemmas -/

theorem lookupKV_setKV_self {κ α : Type} [DecidableEq κ] (l : List (κ × α))
    (k : κ) (v : α) : lookupKV (setKV l k v) k = some v := by
  induction l with
  | nil => simp [setKV, lookupKV]
  | cons h t ih =>
    obtain ⟨k', v'⟩ := h
    by_cases hk : k' = k <;> simp [setKV, lookupKV, hk, ih]

theorem wrapAdd_eq {a b : Nat} (h : a + b < U64MOD) : wrapAdd a b = a + b := by
  unfold wrapAdd U64MOD at *
  omega

theorem wrapSub_eq {a b : Nat} (hba : b ≤ a) (ha : a < U64MOD) :
    wrapSub a b = a - b := by
  unfold wrapSub U64MOD at *
  omega

theorem wrapMul_eq {a b : Nat} (h : a * b < U64MOD) : wrapMul a b = a * b :=
  Nat.mod_eq_of_lt h

/-- The net amount `place_bid` credits for a gross `bid_amount` under the
buyer fee rate of `s` (lib.rs lines 108-109, wrapping semantics). -/
def netAmount (s : NftComAuction) (bid_amount : Nat) : Nat :=
  wrapSub bid_amount (wrapMul bid_amount s.buyer_fee / 1000)

/-- Successful-path characterization of `place_bid`: when the listing exists,
neither identity is the owner, the auction is live and `now` is within
`end_time`, the call succeeds, extends `end_time` exactly when `now` is in
the sniping window, adds the net amount to `total_amount`, and changes
nothing else. -/
theorem place_bid_ok (s : NftComAuction) (lid : String) (bidder caller : Pubkey)
    (amt : Nat) (now : Int) (a : AuctionDetails)
    (ha : lookupKV s.auctions lid = some a)
    (hb : bidder ≠ a.owner) (hc : caller ≠ a.owner)
    (he : a.ended = false) (hp : a.paused = false) (ht : now ≤ a.end_time) :
    place_bid s lid bidder caller amt now =
      .ok ({ s with
              auctions := setKV s.auctions lid
                ({ a with
                   end_time := if a.end_time - s.sniping_time_window ≤ now
                     then a.end_time + s.time_extension else a.end_time
                   total_amount := wrapAdd a.total_amount (netAmount s amt) }) },
            .bidPlaced lid bidder (netAmount s amt)) := by
  unfold place_bid netAmount
  simp only [ha]
  rw [if_neg hb, if_neg hc, he, hp]
  simp only [Bool.false_eq_true, if_false, if_neg (not_not_intro ht)]
  by_cases hw : a.end_time - s.sniping_time_window ≤ now <;> simp [hw, he, hp]

/-! ## Claim theorems -/

/-- Claim C1 (code bug): the conservation invariant
`sum of escrowed amounts + paid out = total_amount` is broken by the very
first bid.  On the fresh listing `"L1"` (buyer fee 20/1000), bidder `2`
places a gross bid of `1000`: `place_bid` succeeds, adds the net `980` to
`total_amount`, but never credits any balance entry, so the escrow sum is
still `0` and nothing has been paid out — `0 + 0 ≠ 980`. -/
theorem c1_place_bid_breaks_escrow_conservation :
    (place_bid stateEx "L1" 2 3 1000 5).map
        (fun p => (lookupKV p.1.auctions "L1").map
          (fun a => (escrowSum a, a.total_amount)))
      = .ok (some (0, 980)) ∧ (0 : Nat) + 0 ≠ 980 := by
  refine ⟨rfl, by decide⟩

/-- Claim C2 (code bug): the leadership recompute is absent (the source stub
comment "Update highest bid logic" at lib.rs lines 125-126).  After bidder
`2` places a successful bid of net `980` (exceeding `minimum_bid = 100`) on
the fresh `"L1"`, `highest_bid` is still `0` while `total_amount` became
`980`: the claimed invariant `highest_bid = max cumulative escrow` fails. -/
theorem c2_place_bid_leaves_highest_bid_stale :
    (place_bid stateEx "L1" 2 3 1000 5).map
        (fun p => (lookupKV p.1.auctions "L1").map
          (fun a => (a.highest_bid, a.highest_bidder, a.total_amount)))
      = .ok (some (0, 0, 980)) ∧ (0 : Nat) ≠ 980 := by
  refine ⟨rfl, by decide⟩

/-- Claim C4 (code bug): in `withdraw` the lamport transfer (lib.rs lines
159-160) is executed strictly BEFORE the balance entry is zeroed (lines
162-166) — the reverse of the claimed checks-effects-interactions order.
On `stateW` (bidder `2` has `500` escrowed, highest bidder is `4`), the
action trace of a successful withdrawal is transfer first, zeroing second;
a second sequential withdraw does fail `NoFundsToWithdraw`. -/
theorem c4_withdraw_transfer_precedes_zeroing :
    (withdraw stateW "L1" 2 none 9).map (fun p => p.2)
      = .ok [Action.transfer 2 9 500, Action.zeroEntry "L1" 2] ∧
    (withdraw stateW "L1" 2 none 9).bind (fun p => withdraw p.1 "L1" 2 none 9)
      = .error .NoFundsToWithdraw := by
  refine ⟨rfl, rfl⟩

/-- Claim C5 (code bug): the fee computation `(bid_amount * buyer_fee) / 1000`
uses unchecked `u64` arithmetic that silently wraps modulo `2^64` (and the
declared `ErrorCode` enum has no arithmetic-error variant at all).  With
`buyer_fee = 8` and a gross bid of `2^62`, the product `2^65` wraps to `0`,
so the fee is `0` and the credited net is the full `2^62` — the bid
succeeds with no error, yet the mathematically exact net would be
`2^62 - floor(2^65/1000) = 4574792530279968801`. -/
theorem c5_place_bid_fee_wraps_silently :
    (place_bid stateFee8 "L1" 2 3 (2 ^ 62) 5).map (fun p => p.2)
      = .ok (Event.bidPlaced "L1" 2 (2 ^ 62)) ∧
    (2 ^ 62 : Nat) ≠ 2 ^ 62 - 2 ^ 62 * 8 / 1000 := by
  refine ⟨rfl, by decide⟩

/-- Claim C9 (code bug): reading the auction right after a successful
`place_bid` does NOT show a bid history one entry longer — `place_bid`
never appends to `bidders`/`bids` (the same missing stub as C2).  After
bidder `2`'s successful bid on the fresh `"L1"`, `get_auction_details`
still reports `0` bidders, `highest_bid = 0` and the default highest
bidder; only `total_amount` changed. -/
theorem c9_get_auction_details_history_not_appended :
    (place_bid stateEx "L1" 2 3 1000 5).map
        (fun p => (lookupKV p.1.auctions "L1").map
          (fun a => ((get_auction_details a).num_bidders,
            (get_auction_details a).bidders,
            (get_auction_details a).highest_bid)))
      = .ok (some (0, [], 0)) ∧ (0 : Nat) ≠ 0 + 1 := by
  refine ⟨rfl, by decide⟩

/-- Claim C8, counterexample: on the empty registry, `initialize_auction` for
`"L1"` with `minimum = 100`, `end_time = 1000 > now = 5`, `owner = 1`, no
explicit bidder and signer `1` (the owner) does NOT succeed: the seed
`place_bid`'s `BidderIsOwner` error propagates through the `?` operator and
the whole instruction fails, so no bid-less auction is left behind. -/
theorem c8_initialize_self_seed_counterexample :
    initialize_auction stateEmpty "L1" 100 1000 1 none 1 500 5
        = .error .BidderIsOwner ∧
    runTx (fun t => initialize_auction t "L1" 100 1000 1 none 1 500 5)
        stateEmpty = stateEmpty := by
  refine ⟨rfl, rfl⟩

/-- Claim C6 (confirmed): for every accepted bid (listing exists, bidder and
caller are not the owner, auction neither ended nor paused,
`now ≤ end_time`), `place_bid` succeeds and extends `end_time` by
`time_extension` exactly when `now ≥ end_time - sniping_window`, regardless
of the bid amount (hence regardless of any leadership outcome).  In
particular a bid at exactly `end_time - sniping_window` extends, and a bid
strictly earlier (e.g. one unit earlier) leaves `end_time` unchanged. -/
theorem c6_place_bid_anti_sniping (s : NftComAuction) (lid : String)
    (bidder caller : Pubkey) (amt : Nat) (now : Int) (a : AuctionDetails)
    (ha : lookupKV s.auctions lid = some a)
    (hb : bidder ≠ a.owner) (hc : caller ≠ a.owner)
    (he : a.ended = false) (hp : a.paused = false) (ht : now ≤ a.end_time) :
    ∃ s' ev a', place_bid s lid bidder caller amt now = .ok (s', ev) ∧
      lookupKV s'.auctions lid = some a' ∧
      (a.end_time - s.sniping_time_window ≤ now →
        a'.end_time = a.end_time + s.time_extension) ∧
      (now < a.end_time - s.sniping_time_window → a'.end_time = a.end_time) := by
  refine ⟨_, _, _, place_bid_ok s lid bidder caller amt now a ha hb hc he hp ht,
    lookupKV_setKV_self _ _ _, ?_, ?_⟩
  · intro hw
    simp only [if_pos hw]
  · intro hw
    simp only [if_neg (not_le_of_lt hw)]

/-- Witness for C6 at the boundary: on `stateEx` (window `10`, extension `5`,
`end_time = 1000`) a bid by `2` at `now = 990 = end_time - window` is in the
window, so the extension implication applies (yielding `1005`). -/
theorem c6_place_bid_anti_sniping_witness :
    ∃ s' ev a', place_bid stateEx "L1" 2 3 1000 990 = .ok (s', ev) ∧
      lookupKV s'.auctions "L1" = some a' ∧
      (auctionL1.end_time - stateEx.sniping_time_window ≤ 990 →
        a'.end_time = auctionL1.end_time + stateEx.time_extension) ∧
      (990 < auctionL1.end_time - stateEx.sniping_time_window →
        a'.end_time = auctionL1.end_time) :=
  c6_place_bid_anti_sniping stateEx "L1" 2 3 1000 990 auctionL1 rfl
    (by decide) (by decide) rfl rfl (by decide)

/-- Claim C10 (confirmed): `place_bid` performs no validation of the amount:
for every gross amount whatsoever (including `0` and amounts whose net is
below `minimum_bid` or the current highest bid — note no hypothesis below
mentions them), once the identity/state/time guards pass, the bid succeeds,
adds the net amount to `total_amount` and emits `BidPlaced` carrying that
net amount. -/
theorem c10_place_bid_accepts_any_amount (s : NftComAuction) (lid : String)
    (bidder caller : Pubkey) (amt : Nat) (now : Int) (a : AuctionDetails)
    (ha : lookupKV s.auctions lid = some a)
    (hb : bidder ≠ a.owner) (hc : caller ≠ a.owner)
    (he : a.ended = false) (hp : a.paused = false) (ht : now ≤ a.end_time) :
    ∃ s' a', place_bid s lid bidder caller amt now
        = .ok (s', .bidPlaced lid bidder (netAmount s amt)) ∧
      lookupKV s'.auctions lid = some a' ∧
      a'.total_amount = wrapAdd a.total_amount (netAmount s amt) := by
  refine ⟨_, _, place_bid_ok s lid bidder caller amt now a ha hb hc he hp ht,
    lookupKV_setKV_self _ _ _, rfl⟩

/-- Witness for C10: a zero-amount bid by `2` on `stateEx` succeeds, emitting
`BidPlaced` with value `netAmount stateEx 0 = 0` and leaving
`total_amount = 0 + 0`. -/
theorem c10_place_bid_accepts_any_amount_witness :
    (∃ s' a', place_bid stateEx "L1" 2 3 0 5
        = .ok (s', .bidPlaced "L1" 2 (netAmount stateEx 0)) ∧
      lookupKV s'.auctions "L1" = some a' ∧
      a'.total_amount = wrapAdd auctionL1.total_amount (netAmount stateEx 0)) ∧
    netAmount stateEx 0 = 0 :=
  ⟨c10_place_bid_accepts_any_amount stateEx "L1" 2 3 0 5 auctionL1 rfl
    (by decide) (by decide) rfl rfl (by decide), rfl⟩

/-- Claim C8, amended (the claim, changed as the counterexample forces):
calling `initialize_auction` with no explicit initial bidder — so the seed
bidder defaults to the signer — when the signer is the listing owner does
NOT succeed: the seed `place_bid` is rejected with `BidderIsOwner`
(`SelfBid`), the error propagates through the `?` operator, the whole
instruction fails, and under the all-or-nothing transaction semantics the
listing creation is undone, so no bid-less auction is left behind. -/
theorem c8_initialize_self_seed_fails (s : NftComAuction) (lid : String)
    (minimum : Nat) (end_time : Int) (owner signer : Pubkey) (amt : Nat)
    (now : Int) (habs : lookupKV s.auctions lid = none) (hmin : 0 < minimum)
    (hend : now < end_time) (hsig : signer = owner) :
    initialize_auction s lid minimum end_time owner none signer amt now
        = .error .BidderIsOwner ∧
    runTx (fun t =>
        initialize_auction t lid minimum end_time owner none signer amt now) s
      = s := by
  have hmain : initialize_auction s lid minimum end_time owner none signer amt
      now = .error .BidderIsOwner := by
    unfold initialize_auction
    simp only [habs, Option.isSome_none, Bool.false_eq_true, if_false,
      Option.getD_none, if_neg (not_not_intro hmin), if_neg (not_not_intro hend)]
    unfold place_bid
    simp only [lookupKV_setKV_self]
    rw [if_pos hsig]
  refine ⟨hmain, ?_⟩
  unfold runTx
  simp only [hmain]

/-- Witness for the amended C8: on `stateEx` (which has no listing `"L2"`),
owner `3` initializing `"L2"` with minimum `7`, `end_time = 50 > now = 4`,
no explicit bidder and signing itself, fails `BidderIsOwner` and leaves the
registry untouched. -/
theorem c8_initialize_self_seed_fails_witness :
    initialize_auction stateEx "L2" 7 50 3 none 3 123 4
        = .error .BidderIsOwner ∧
    runTx (fun t => initialize_auction t "L2" 7 50 3 none 3 123 4) stateEx
      = stateEx :=
  c8_initialize_self_seed_fails stateEx "L2" 7 50 3 3 123 4 rfl
    (by decide) (by decide) rfl

/-- The total fee `end_auction` transfers to the fee recipient (lib.rs lines
250-260, wrapping semantics): `highest_bid * seller_fee / 1000` plus the
accrued `fees`, plus `total_amount * seller_fee / 1000` in alien mode. -/
def settlementFee (s : NftComAuction) (a : AuctionDetails) : Nat :=
  let fee1 := wrapAdd (wrapMul a.highest_bid s.seller_fee / 1000) a.fees
  if a.is_alien then wrapAdd fee1 (wrapMul a.total_amount s.seller_fee / 1000)
  else fee1

/-- The owner earnings `end_auction` transfers to the owner (lib.rs lines
250-260, wrapping semantics): `highest_bid` minus its fee cut, plus
`total_amount` minus the pool fee in alien mode. -/
def settlementEarnings (s : NftComAuction) (a : AuctionDetails) : Nat :=
  let e0 := wrapSub a.highest_bid (wrapMul a.highest_bid s.seller_fee / 1000)
  if a.is_alien then
    wrapAdd e0 (wrapSub a.total_amount (wrapMul a.total_amount s.seller_fee / 1000))
  else e0

/-- Success-path characterization of `end_auction` up to the mint step: when
the listing exists and is expired, unended, with a positive highest bid, the
owner is present in both owner-indexed maps with the listing in its active
vector, and the highest bidder has a `bids` record, then the call with a
failing mint returns exactly `MintingFailed`, and with a succeeding mint
returns `Ok` with the two transfers `owner_earnings` (to the auction owner)
and `fee` (to the fee recipient account). -/
theorem end_auction_reaches_mint (s : NftComAuction) (lid : String)
    (hook oa fr sp : Pubkey) (now : Int) (a : AuctionDetails)
    (ha : lookupKV s.auctions lid = some a)
    (ht : a.end_time ≤ now) (he : a.ended = false) (hb : 0 < a.highest_bid)
    (act : List String) (hact : lookupKV s.active_auctions a.owner = some act)
    (past : List String) (hpast : lookupKV s.past_auctions a.owner = some past)
    (winBid : Bid) (hbid : lookupKV a.bids a.highest_bidder = some winBid) :
    end_auction s lid hook oa fr sp now false = .error .MintingFailed ∧
    ∃ s', end_auction s lid hook oa fr sp now true =
      .ok (s', [Action.transfer oa a.owner (settlementEarnings s a),
                Action.transfer oa fr (settlementFee s a)]) := by
  have main1 : end_auction s lid hook oa fr sp now false
      = .error .MintingFailed := by
    unfold end_auction
    simp only [ha]
    rw [if_neg (not_not_intro ht), he]
    simp only [Bool.false_eq_true, if_false]
    rw [if_neg (not_not_intro hb)]
    simp only [hact, hpast, hbid]
    cases hfi : act.findIdx? (fun x => x == lid) <;> simp
  have main2 : (end_auction s lid hook oa fr sp now true).map Prod.snd
      = .ok [Action.transfer oa a.owner (settlementEarnings s a),
             Action.transfer oa fr (settlementFee s a)] := by
    unfold end_auction
    simp only [ha]
    rw [if_neg (not_not_intro ht), he]
    simp only [Bool.false_eq_true, if_false]
    rw [if_neg (not_not_intro hb)]
    simp only [hact, hpast, hbid]
    cases hfi : act.findIdx? (fun x => x == lid) <;>
      by_cases hal : a.is_alien <;>
        simp [settlementFee, settlementEarnings, hal, Except.map]
  refine ⟨main1, ?_⟩
  cases hE : end_auction s lid hook oa fr sp now true with
  | error e =>
    rw [hE] at main2
    simp [Except.map] at main2
  | ok p =>
    rw [hE] at main2
    simp only [Except.map] at main2
    exact ⟨p.1, congrArg Except.ok (Prod.ext rfl (by simpa using main2))⟩

/-- Claim C3 (confirmed): if the mint step fails, `end_auction` as a whole
fails with `MintingFailed`, and under the platform's all-or-nothing
transaction semantics (`runTx`) every state mutation made before the mint —
`ended := true` and the active→past reclassification — is rolled back, so
the state is unchanged and the same auction can still be ended by a later
`end_auction` call whose mint succeeds. -/
theorem c3_end_auction_mint_failure_atomic (s : NftComAuction) (lid : String)
    (hook oa fr sp : Pubkey) (now : Int) (a : AuctionDetails)
    (ha : lookupKV s.auctions lid = some a)
    (ht : a.end_time ≤ now) (he : a.ended = false) (hb : 0 < a.highest_bid)
    (act : List String) (hact : lookupKV s.active_auctions a.owner = some act)
    (past : List String) (hpast : lookupKV s.past_auctions a.owner = some past)
    (winBid : Bid) (hbid : lookupKV a.bids a.highest_bidder = some winBid) :
    end_auction s lid hook oa fr sp now false = .error .MintingFailed ∧
    runTx (fun t => end_auction t lid hook oa fr sp now false) s = s ∧
    ∃ p, end_auction s lid hook oa fr sp now true = .ok p := by
  obtain ⟨h1, s', h2⟩ := end_auction_reaches_mint s lid hook oa fr sp now a ha
    ht he hb act hact past hpast winBid hbid
  refine ⟨h1, ?_, ⟨_, h2⟩⟩
  unfold runTx
  simp only [h1]

/-- Witness for C3: on `stateS` (listing `"L1"` expired at `now = 2000`,
highest bid `980` by `2`, unended), `end_auction` with a failing mint
errors `MintingFailed`, the committed state is unchanged, and the same call
with a succeeding mint goes through. -/
theorem c3_end_auction_mint_failure_atomic_witness :
    end_auction stateS "L1" 0 1 7 8 2000 false = .error .MintingFailed ∧
    runTx (fun t => end_auction t "L1" 0 1 7 8 2000 false) stateS = stateS ∧
    ∃ p, end_auction stateS "L1" 0 1 7 8 2000 true = .ok p :=
  c3_end_auction_mint_failure_atomic stateS "L1" 0 1 7 8 2000 auctionS rfl
    (by decide) rfl (by decide) ["L1"] rfl [] rfl { amount := 980, time := 7 } rfl

/-- Claim C7 (confirmed, for in-range values): with the success-path
hypotheses of `end_auction_reaches_mint`, a fee rate of at most 1000
per-mille and amounts at most `2^31` (so no `u64` wrap occurs), the two
transfers of a successful settlement are exactly
`owner_earnings = highest_bid - floor(highest_bid * seller_fee / 1000)`
to the auction owner and
`fee = floor(highest_bid * seller_fee / 1000) + fees_accrued`
to the fee recipient, each augmented in alien mode by
`total_amount - pool_fee` resp. `pool_fee = floor(total_amount * seller_fee / 1000)`. -/
theorem c7_end_auction_payout_amounts (s : NftComAuction) (lid : String)
    (hook oa fr sp : Pubkey) (now : Int) (a : AuctionDetails)
    (ha : lookupKV s.auctions lid = some a)
    (ht : a.end_time ≤ now) (he : a.ended = false) (hb : 0 < a.highest_bid)
    (act : List String) (hact : lookupKV s.active_auctions a.owner = some act)
    (past : List String) (hpast : lookupKV s.past_auctions a.owner = some past)
    (winBid : Bid) (hbid : lookupKV a.bids a.highest_bidder = some winBid)
    (hsf : s.seller_fee ≤ 1000) (hhb : a.highest_bid ≤ 2 ^ 31)
    (hfees : a.fees ≤ 2 ^ 31) (hta : a.total_amount ≤ 2 ^ 31) :
    ∃ s', end_auction s lid hook oa fr sp now true =
      .ok (s', [Action.transfer oa a.owner
          (a.highest_bid - a.highest_bid * s.seller_fee / 1000 +
            (if a.is_alien then
              a.total_amount - a.total_amount * s.seller_fee / 1000 else 0)),
        Action.transfer oa fr
          (a.highest_bid * s.seller_fee / 1000 + a.fees +
            (if a.is_alien then a.total_amount * s.seller_fee / 1000 else 0))]) := by
  obtain ⟨-, s', h2⟩ := end_auction_reaches_mint s lid hook oa fr sp now a ha
    ht he hb act hact past hpast winBid hbid
  have hm1 : a.highest_bid * s.seller_fee < U64MOD := by
    have h := Nat.mul_le_mul hhb hsf
    unfold U64MOD
    omega
  have hm2 : a.total_amount * s.seller_fee < U64MOD := by
    have h := Nat.mul_le_mul hta hsf
    unfold U64MOD
    omega
  have hf1 : a.highest_bid * s.seller_fee / 1000 ≤ a.highest_bid := by
    calc a.highest_bid * s.seller_fee / 1000
        ≤ a.highest_bid * 1000 / 1000 :=
          Nat.div_le_div_right (Nat.mul_le_mul_left _ hsf)
      _ = a.highest_bid := Nat.mul_div_cancel _ (by norm_num)
  have hf2 : a.total_amount * s.seller_fee / 1000 ≤ a.total_amount := by
    calc a.total_amount * s.seller_fee / 1000
        ≤ a.total_amount * 1000 / 1000 :=
          Nat.div_le_div_right (Nat.mul_le_mul_left _ hsf)
      _ = a.total_amount := Nat.mul_div_cancel _ (by norm_num)
  have hU : (2 ^ 31 : Nat) + 2 ^ 31 + 2 ^ 31 < U64MOD := by
    unfold U64MOD
    norm_num
  have hfee : settlementFee s a =
      a.highest_bid * s.seller_fee / 1000 + a.fees +
        (if a.is_alien then a.total_amount * s.seller_fee / 1000 else 0) := by
    unfold settlementFee
    cases hal : a.is_alien
    · simp only [hal, Bool.false_eq_true, if_false]
      rw [wrapMul_eq hm1,
        wrapAdd_eq (show a.highest_bid * s.seller_fee / 1000 + a.fees < U64MOD
          by omega)]
      omega
    · simp only [hal, eq_self_iff_true, if_true]
      rw [wrapMul_eq hm1, wrapMul_eq hm2,
        wrapAdd_eq (show a.highest_bid * s.seller_fee / 1000 + a.fees < U64MOD
          by omega),
        wrapAdd_eq (show a.highest_bid * s.seller_fee / 1000 + a.fees +
          a.total_amount * s.seller_fee / 1000 < U64MOD by omega)]
  have hearn : settlementEarnings s a =
      a.highest_bid - a.highest_bid * s.seller_fee / 1000 +
        (if a.is_alien then
          a.total_amount - a.total_amount * s.seller_fee / 1000 else 0) := by
    unfold settlementEarnings
    cases hal : a.is_alien
    · simp only [hal, Bool.false_eq_true, if_false]
      rw [wrapMul_eq hm1, wrapSub_eq hf1 (by omega)]
      omega
    · simp only [hal, eq_self_iff_true, if_true]
      rw [wrapMul_eq hm1, wrapMul_eq hm2, wrapSub_eq hf1 (by omega),
        wrapSub_eq hf2 (by omega),
        wrapAdd_eq (show a.highest_bid - a.highest_bid * s.seller_fee / 1000 +
          (a.total_amount - a.total_amount * s.seller_fee / 1000) < U64MOD
          by omega)]
  refine ⟨s', ?_⟩
  rw [h2, hfee, hearn]

/-- Witness for C7, the spec's Scenario 6: on `stateS`
(`seller_fee = 50`, `highest_bid = 980`, no accrued fees, standard mode) a
successful settlement transfers `931` to the owner and `49` to the fee
recipient. -/
theorem c7_end_auction_payout_amounts_witness :
    ∃ s', end_auction stateS "L1" 0 1 7 8 2000 true =
      .ok (s', [Action.transfer 1 1 931, Action.transfer 1 7 49]) := by
  have h := c7_end_auction_payout_amounts stateS "L1" 0 1 7 8 2000 auctionS rfl
    (by decide) rfl (by decide) ["L1"] rfl [] rfl { amount := 980, time := 7 } rfl
    (by decide) (by decide) (by decide) (by decide)
  simpa [stateS, stateEx, auctionS, auctionL1] using h

end NftComAuctionModel
